import Mathlib

/-!
Verification of the data-aggregation and view-filtering logic of the
irs-viz-demo dashboard (src/viz_demo/app.py).

The bespoke logic of the repository is two small tabular transformations
over an in-memory table of scouting measurements:

* `get_cube_measures` : keep rows whose `task` starts with "cube", group
  by (team, match, phase) and sum `hit`;
* the data-filtering step of `_build_cube_histogram` : given the summary
  table and a phase selector string, either keep only the rows of one
  phase (selector lower-cases to "auto" or "tele") or re-aggregate over
  (team, match) dropping the phase column.

The tables are embedded as lists of records.  Pandas emits the groups of
a `groupby` in an order (sorted by key) that the specification says no
consumer may rely on; the embedding produces one output row per distinct
key, in an order derived from the input order, and no theorem below
depends on the order of rows.
-/

namespace VizDemo

/-- A raw measurement record: one row of the team-measures table, with
columns `team`, `match`, `phase`, `task`, `hit`. -/
structure Measure where
  team : Nat
  match_ : Nat
  phase : String
  task : String
  hit : Int
deriving DecidableEq

/-- A summary record: one row of the output of `get_cube_measures`, with
columns in the order `team`, `match`, `phase`, `hit`. -/
structure CubeMeasure where
  team : Nat
  match_ : Nat
  phase : String
  hit : Int
deriving DecidableEq

/-- One row of the re-aggregated table produced by the "All" branch of
`_build_cube_histogram` : columns `team`, `match`, `hit` (phase dropped). -/
structure TeamMatchMeasure where
  team : Nat
  match_ : Nat
  hit : Int
deriving DecidableEq

/-- Embedding of the Python string method `lower` : per-character
lower-casing (the phase and selector strings of this program are ASCII). -/
def strLower (s : String) : String :=
  ⟨s.data.map Char.toLower⟩

/-- Embedding of the Python string method `startswith` : `strStarts s p` is
true when the characters of `p` are an initial segment of those of `s`. -/
def strStarts (s p : String) : Bool :=
  p.data.isPrefixOf s.data

/-- The grouping key of `get_cube_measures` : the (team, match, phase)
columns of a raw row. -/
def Measure.gkey (r : Measure) : Nat × Nat × String :=
  (r.team, r.match_, r.phase)

/-- The (team, match, phase) columns of a summary row. -/
def CubeMeasure.gkey (r : CubeMeasure) : Nat × Nat × String :=
  (r.team, r.match_, r.phase)

/-- The (team, match) columns of a summary row: the grouping key of the
"All" branch of `_build_cube_histogram`. -/
def CubeMeasure.pkey (r : CubeMeasure) : Nat × Nat :=
  (r.team, r.match_)

/-- The (team, match) columns of a re-aggregated row. -/
def TeamMatchMeasure.pkey (r : TeamMatchMeasure) : Nat × Nat :=
  (r.team, r.match_)

/-- Sum of a numeric column (given by `f`) over the rows of a table. -/
def sumHit (f : α → Int) (rows : List α) : Int :=
  (rows.map f).sum

/-- `.groupby(keys).agg(hit sum)` : one output row per distinct key of the
input, built by `mk` from the key and the sum of the `hit` column (given by
`f`) over the rows of that group.  Group order is not relied upon. -/
def groupAgg [DecidableEq κ] (key : α → κ) (f : α → Int) (mk : κ → Int → β)
    (rows : List α) : List β :=
  ((rows.map key).dedup).map
    (fun k => mk k (sumHit f (rows.filter (fun r => decide (key r = k)))))

/-- Embedding of `get_cube_measures` (app.py lines 72-89):
keep the rows whose `task` starts with "cube", group them by
(team, match, phase) and sum `hit`, emitting columns team, match, phase,
hit. -/
def get_cube_measures (measures : List Measure) : List CubeMeasure :=
  groupAgg Measure.gkey Measure.hit
    (fun k h => ⟨k.1, k.2.1, k.2.2, h⟩)
    (measures.filter (fun r => strStarts r.task "cube"))

/-- The table held by the figure built in `_build_cube_histogram` : the
two branches of the filtering step produce tables with different columns. -/
inductive HistTable where
  | byPhase (rows : List CubeMeasure)
  | allPhases (rows : List TeamMatchMeasure)
deriving DecidableEq

/-- The re-aggregation of the else-branch of `_build_cube_histogram` :
`.groupby(["team", "match"], as_index=False).agg(hit sum)`. -/
def aggTeamMatch (rows : List CubeMeasure) : List TeamMatchMeasure :=
  groupAgg CubeMeasure.pkey CubeMeasure.hit (fun k h => ⟨k.1, k.2, h⟩) rows

/-- Embedding of the data-filtering step of `_build_cube_histogram`
(app.py lines 177-186): if the lower-cased selector is in
["auto", "tele"], keep only the summary rows of that phase; otherwise
re-aggregate over (team, match). -/
def filterCubeMeasures (cube_measures : List CubeMeasure) (phase : String) :
    HistTable :=
  if (["auto", "tele"].contains (strLower phase)) then
    HistTable.byPhase
      (cube_measures.filter (fun r => r.phase == strLower phase))
  else
    HistTable.allPhases (aggTeamMatch cube_measures)

/-- The plot title of `_build_cube_histogram` (app.py line 189), built from
the selector as received, before lower-casing. -/
def plotTitle (phase : String) : String :=
  "Histogram of Cubes Placed Per Match: " ++ phase

/-- The selector as delivered by the radio control: a string, or None
(modelled `none`) when the control is cleared.  Python applies `.lower()`
to it unconditionally, so a None selector raises AttributeError before the
branch on the selector value is reached; a raised exception is modelled as
`Except.error`. -/
def filterCubeMeasuresDyn (cube_measures : List CubeMeasure)
    (phase : Option String) : Except String HistTable :=
  match phase with
  | none => Except.error "AttributeError: NoneType has no attribute lower"
  | some p => Except.ok (filterCubeMeasures cube_measures p)

/-- One call of the filtering step, returning the result together with the
value of the caller's table after the call.  The source rebinds the local
name `cube_measures`; `.loc`, `.groupby` and `.agg` each return a new
frame, so the table passed in is left as it was. -/
def filterCubeMeasuresCall (s : List CubeMeasure) (phase : String) :
    HistTable × List CubeMeasure :=
  (filterCubeMeasures s phase, s)

/-- Total of the `hit` column of the table selected for display. -/
def HistTable.hitTotal : HistTable → Int
  | HistTable.byPhase rows => sumHit CubeMeasure.hit rows
  | HistTable.allPhases rows => sumHit TeamMatchMeasure.hit rows

/-- Specification-side description of the category aggregator, written from
the words of the spec (section 4.2): keep only the rows whose task starts
with the category name "cube"; the output has one row per distinct
(team, match, phase) key among the kept rows, whose `hit` is the sum of
`hit` over the kept rows carrying that key. -/
def IsCubeSummary (t : List Measure) (o : List CubeMeasure) : Prop :=
  (o.map CubeMeasure.gkey).Nodup ∧
  (∀ k, k ∈ o.map CubeMeasure.gkey ↔
    k ∈ (t.filter (fun r => strStarts r.task "cube")).map Measure.gkey) ∧
  (∀ s ∈ o, s.hit = sumHit Measure.hit
    ((t.filter (fun r => strStarts r.task "cube")).filter
      (fun r => decide (Measure.gkey r = CubeMeasure.gkey s))))

/-- Specification-side description of the "All" re-aggregation, written
from the words of the spec (section 4.3): one row per distinct
(team, match) key of the summary table, whose `hit` is the sum of `hit`
across the phases of that key; the phase column is dropped. -/
def IsTeamMatchSummary (s : List CubeMeasure) (o : List TeamMatchMeasure) : Prop :=
  (o.map TeamMatchMeasure.pkey).Nodup ∧
  (∀ k, k ∈ o.map TeamMatchMeasure.pkey ↔ k ∈ s.map CubeMeasure.pkey) ∧
  (∀ r ∈ o, r.hit = sumHit CubeMeasure.hit
    (s.filter (fun x => decide (CubeMeasure.pkey x = TeamMatchMeasure.pkey r))))

/-- The concrete summary table of the scenario in section 8 of the spec. -/
def demoSummary : List CubeMeasure :=
  [⟨1, 1, "auto", 3⟩, ⟨1, 1, "tele", 2⟩, ⟨2, 1, "auto", 1⟩]

/-- A concrete raw measurement table: a cube row and a cone row on the same
(team, match, phase), from the scenario in section 8 of the spec. -/
def demoRaw : List Measure :=
  [⟨1, 1, "auto", "cube_auto_high", 1⟩, ⟨1, 1, "auto", "cone_auto_high", 5⟩]

/-! ### General lemmas about the grouping operation -/

theorem sumHit_filter_add (f : α → Int) (p : α → Bool) (l : List α) :
    sumHit f (l.filter p) + sumHit f (l.filter (fun a => !(p a))) = sumHit f l := by
  induction l with
  | nil => simp [sumHit]
  | cons a l ih =>
    rcases h : p a with _ | _ <;>
      simp [sumHit, List.filter_cons, h] at ih ⊢ <;> omega

theorem sum_over_groups [DecidableEq κ] (key : α → κ) (f : α → Int) :
    ∀ (ks : List κ), ks.Nodup → ∀ (rows : List α), (∀ r ∈ rows, key r ∈ ks) →
      (ks.map (fun k => sumHit f (rows.filter (fun r => decide (key r = k))))).sum
        = sumHit f rows := by
  intro ks
  induction ks with
  | nil =>
    intro _ rows hcov
    have hnil : rows = [] :=
      List.eq_nil_iff_forall_not_mem.mpr (fun r hr => by simpa using hcov r hr)
    subst hnil
    simp [sumHit]
  | cons k ks ih =>
    intro hnd rows hcov
    have hk : k ∉ ks := (List.nodup_cons.mp hnd).1
    have hnd' : ks.Nodup := (List.nodup_cons.mp hnd).2
    have hstep : ∀ k' ∈ ks,
        sumHit f (rows.filter (fun r => decide (key r = k')))
          = sumHit f ((rows.filter (fun r => !decide (key r = k))).filter
              (fun r => decide (key r = k'))) := by
      intro k' hk'
      rw [List.filter_filter]
      congr 1
      apply List.filter_congr
      intro r _
      rcases h : decide (key r = k') with _ | _
      · simp
      · have hkeq : key r = k' := of_decide_eq_true h
        have hkk' : k ≠ k' := fun he => hk (he ▸ hk')
        have hne : key r ≠ k := fun he => hkk' (he.symm.trans hkeq)
        simp [hne]
    have hcov' : ∀ r ∈ rows.filter (fun r => !decide (key r = k)), key r ∈ ks := by
      intro r hr
      rcases List.mem_filter.mp hr with ⟨hrm, hneq⟩
      have hne : key r ≠ k := by simpa using hneq
      rcases List.mem_cons.mp (hcov r hrm) with h | h
      · exact absurd h hne
      · exact h
    have htail := ih hnd' (rows.filter (fun r => !decide (key r = k))) hcov'
    calc (((k :: ks).map
            (fun k => sumHit f (rows.filter (fun r => decide (key r = k))))).sum)
        = sumHit f (rows.filter (fun r => decide (key r = k)))
            + (ks.map (fun k' => sumHit f
                ((rows.filter (fun r => !decide (key r = k))).filter
                  (fun r => decide (key r = k'))))).sum := by
          rw [List.map_cons, List.sum_cons, List.map_congr_left hstep]
      _ = sumHit f (rows.filter (fun r => decide (key r = k)))
            + sumHit f (rows.filter (fun r => !decide (key r = k))) := by rw [htail]
      _ = sumHit f rows := sumHit_filter_add f (fun r => decide (key r = k)) rows

theorem groupAgg_keys [DecidableEq κ] (key : α → κ) (f : α → Int)
    (mk : κ → Int → β) (g : β → κ) (hg : ∀ k x, g (mk k x) = k) (rows : List α) :
    (groupAgg key f mk rows).map g = (rows.map key).dedup := by
  unfold groupAgg
  rw [List.map_map]
  have hid : ∀ k ∈ (rows.map key).dedup,
      (g ∘ fun k => mk k (sumHit f (rows.filter (fun r => decide (key r = k))))) k
        = id k := fun k _ => hg k _
  rw [List.map_congr_left hid, List.map_id]

theorem groupAgg_hits [DecidableEq κ] (key : α → κ) (f : α → Int)
    (mk : κ → Int → β) (g : β → κ) (hv : β → Int)
    (hgk : ∀ k x, g (mk k x) = k) (hvk : ∀ k x, hv (mk k x) = x) (rows : List α) :
    ∀ b ∈ groupAgg key f mk rows,
      hv b = sumHit f (rows.filter (fun r => decide (key r = g b))) := by
  intro b hb
  unfold groupAgg at hb
  rcases List.mem_map.mp hb with ⟨k, hk, rfl⟩
  rw [hvk, hgk]

theorem sumHit_map (g : β → Int) (m : κ → β) (l : List κ) :
    sumHit g (l.map m) = (l.map (fun k => g (m k))).sum := by
  unfold sumHit
  rw [List.map_map]
  rfl

theorem sumHit_groupAgg [DecidableEq κ] (key : α → κ) (f : α → Int)
    (mk : κ → Int → β) (hv : β → Int) (hvk : ∀ k x, hv (mk k x) = x)
    (rows : List α) :
    sumHit hv (groupAgg key f mk rows) = sumHit f rows := by
  unfold groupAgg
  rw [sumHit_map]
  have h1 : ∀ k ∈ (rows.map key).dedup,
      hv (mk k (sumHit f (rows.filter (fun r => decide (key r = k)))))
        = sumHit f (rows.filter (fun r => decide (key r = k))) := fun k _ => hvk k _
  rw [List.map_congr_left h1]
  exact sum_over_groups key f _ (List.nodup_dedup _) rows
    (fun r hr => List.mem_dedup.mpr (List.mem_map_of_mem key hr))

/-! ### The claims -/

/-- C1: for every raw measurement table, `get_cube_measures` returns a table
obtained by keeping exactly the rows whose task starts with the fixed
category name "cube", grouping the kept rows by (team, match, phase) and
summing `hit` within each group, with columns in the order team, match,
phase, hit. -/
theorem get_cube_measures_isCubeSummary (t : List Measure) :
    IsCubeSummary t (get_cube_measures t) := by
  have hkeys : (get_cube_measures t).map CubeMeasure.gkey
      = ((t.filter (fun r => strStarts r.task "cube")).map Measure.gkey).dedup :=
    groupAgg_keys Measure.gkey Measure.hit
      (fun k h => (⟨k.1, k.2.1, k.2.2, h⟩ : CubeMeasure)) CubeMeasure.gkey
      (fun k x => rfl) _
  refine ⟨?_, ?_, ?_⟩
  · rw [hkeys]; exact List.nodup_dedup _
  · intro k; rw [hkeys]; exact List.mem_dedup
  · intro s hs
    exact groupAgg_hits Measure.gkey Measure.hit
      (fun k h => (⟨k.1, k.2.1, k.2.2, h⟩ : CubeMeasure)) CubeMeasure.gkey
      CubeMeasure.hit (fun k x => rfl) (fun k x => rfl) _ s hs

/-- C4: for every raw measurement table, the table produced by the category
aggregator contains no two rows with the same (team, match, phase) tuple. -/
theorem get_cube_measures_keys_nodup (t : List Measure) :
    ((get_cube_measures t).map CubeMeasure.gkey).Nodup := by
  unfold get_cube_measures
  rw [groupAgg_keys Measure.gkey Measure.hit
    (fun k h => (⟨k.1, k.2.1, k.2.2, h⟩ : CubeMeasure)) CubeMeasure.gkey
    (fun k x => rfl)]
  exact List.nodup_dedup _

/-- C5: for every raw measurement table, the sum of the `hit` column over
the aggregated table equals the sum of `hit` over exactly those raw rows
whose task starts with "cube". -/
theorem get_cube_measures_hitTotal (t : List Measure) :
    sumHit CubeMeasure.hit (get_cube_measures t)
      = sumHit Measure.hit (t.filter (fun r => strStarts r.task "cube")) := by
  unfold get_cube_measures
  exact sumHit_groupAgg Measure.gkey Measure.hit
    (fun k h => (⟨k.1, k.2.1, k.2.2, h⟩ : CubeMeasure)) CubeMeasure.hit
    (fun k x => rfl) _

/-- C2: for every summary table and selector whose lower-cased value is
"auto" or "tele", the data-filtering step of `_build_cube_histogram`
returns exactly the rows whose phase equals that lower-cased value, with
the columns team, match, phase, hit unchanged. -/
theorem filterCubeMeasures_knownPhase (s : List CubeMeasure) (sel : String)
    (h : strLower sel = "auto" ∨ strLower sel = "tele") :
    filterCubeMeasures s sel
        = HistTable.byPhase (s.filter (fun r => r.phase == strLower sel)) ∧
      (s.filter (fun r => r.phase == strLower sel)).Sublist s ∧
      (∀ r ∈ s, (r ∈ s.filter (fun r => r.phase == strLower sel)
        ↔ r.phase = strLower sel)) := by
  have hc : (["auto", "tele"].contains (strLower sel)) = true := by
    rcases h with h | h <;> simp [h]
  refine ⟨?_, List.filter_sublist _, ?_⟩
  · unfold filterCubeMeasures
    rw [if_pos hc]
  · intro r hr
    constructor
    · intro hrf
      exact eq_of_beq (List.mem_filter.mp hrf).2
    · intro hp
      exact List.mem_filter.mpr ⟨hr, by rw [hp]; exact beq_self_eq_true _⟩

/-- C2 witness: on the concrete summary table of the spec scenario, the
selector "Auto" keeps exactly the auto rows. -/
theorem filterCubeMeasures_knownPhase_witness :
    filterCubeMeasures demoSummary "Auto"
      = HistTable.byPhase
          (demoSummary.filter (fun r => r.phase == strLower "Auto")) :=
  (filterCubeMeasures_knownPhase demoSummary "Auto" (Or.inl (by decide))).1

/-- C3: for every summary table and selector whose lower-cased value is
neither "auto" nor "tele" (this covers "All", the empty string and any
unexpected string), the data-filtering step raises no error and returns
the re-aggregation of the summary grouped by (team, match) with `hit`
summed across phases and the phase column dropped. -/
theorem filterCubeMeasures_unknownPhase (s : List CubeMeasure) (sel : String)
    (h1 : strLower sel ≠ "auto") (h2 : strLower sel ≠ "tele") :
    filterCubeMeasuresDyn s (some sel)
        = Except.ok (HistTable.allPhases (aggTeamMatch s)) ∧
      IsTeamMatchSummary s (aggTeamMatch s) := by
  have hc : ¬ ((["auto", "tele"].contains (strLower sel)) = true) := by
    simp [h1, h2]
  have hkeys : (aggTeamMatch s).map TeamMatchMeasure.pkey
      = (s.map CubeMeasure.pkey).dedup :=
    groupAgg_keys CubeMeasure.pkey CubeMeasure.hit
      (fun k h => (⟨k.1, k.2, h⟩ : TeamMatchMeasure)) TeamMatchMeasure.pkey
      (fun k x => rfl) _
  refine ⟨?_, ?_, ?_, ?_⟩
  · show Except.ok (filterCubeMeasures s sel) = _
    unfold filterCubeMeasures
    rw [if_neg hc]
  · rw [hkeys]; exact List.nodup_dedup _
  · intro k; rw [hkeys]; exact List.mem_dedup
  · intro r hr
    exact groupAgg_hits CubeMeasure.pkey CubeMeasure.hit
      (fun k h => (⟨k.1, k.2, h⟩ : TeamMatchMeasure)) TeamMatchMeasure.pkey
      TeamMatchMeasure.hit (fun k x => rfl) (fun k x => rfl) _ r hr

/-- C3 witness: on the concrete summary table of the spec scenario, the
selector "All" re-aggregates without raising. -/
theorem filterCubeMeasures_unknownPhase_witness :
    filterCubeMeasuresDyn demoSummary (some "All")
      = Except.ok (HistTable.allPhases (aggTeamMatch demoSummary)) :=
  (filterCubeMeasures_unknownPhase demoSummary "All" (by decide) (by decide)).1

/-- C6: for every summary table whose phase values are all "auto" or
"tele", the total of `hit` in the view for selector "All" equals the total
for "Auto" plus the total for "Tele". -/
theorem filterCubeMeasures_totals_split (s : List CubeMeasure)
    (hp : ∀ r ∈ s, r.phase = "auto" ∨ r.phase = "tele") :
    (filterCubeMeasures s "All").hitTotal
      = (filterCubeMeasures s "Auto").hitTotal
        + (filterCubeMeasures s "Tele").hitTotal := by
  have hAll : filterCubeMeasures s "All" = HistTable.allPhases (aggTeamMatch s) := by
    unfold filterCubeMeasures
    rw [show strLower "All" = "all" from by decide]
    rw [if_neg (by decide)]
  have hAuto : filterCubeMeasures s "Auto"
      = HistTable.byPhase (s.filter (fun r => r.phase == "auto")) := by
    unfold filterCubeMeasures
    rw [show strLower "Auto" = "auto" from by decide]
    rw [if_pos (by decide)]
  have hTele : filterCubeMeasures s "Tele"
      = HistTable.byPhase (s.filter (fun r => r.phase == "tele")) := by
    unfold filterCubeMeasures
    rw [show strLower "Tele" = "tele" from by decide]
    rw [if_pos (by decide)]
  rw [hAll, hAuto, hTele]
  show sumHit TeamMatchMeasure.hit (aggTeamMatch s)
      = sumHit CubeMeasure.hit (s.filter (fun r => r.phase == "auto"))
        + sumHit CubeMeasure.hit (s.filter (fun r => r.phase == "tele"))
  have htot : sumHit TeamMatchMeasure.hit (aggTeamMatch s)
      = sumHit CubeMeasure.hit s := by
    unfold aggTeamMatch
    exact sumHit_groupAgg CubeMeasure.pkey CubeMeasure.hit
      (fun k h => (⟨k.1, k.2, h⟩ : TeamMatchMeasure)) TeamMatchMeasure.hit
      (fun k x => rfl) _
  have hsplit := sumHit_filter_add CubeMeasure.hit
    (fun r => r.phase == "auto") s
  have hneg : s.filter (fun r => !(r.phase == "auto"))
      = s.filter (fun r => r.phase == "tele") := by
    apply List.filter_congr
    intro r hr
    rcases hp r hr with h | h <;> simp [h]
  rw [hneg] at hsplit
  rw [htot]
  omega

/-- C6 witness: on the concrete summary table of the spec scenario,
5 + 1 = (3 + 1) + 2. -/
theorem filterCubeMeasures_totals_split_witness :
    (filterCubeMeasures demoSummary "All").hitTotal
      = (filterCubeMeasures demoSummary "Auto").hitTotal
        + (filterCubeMeasures demoSummary "Tele").hitTotal :=
  filterCubeMeasures_totals_split demoSummary (by decide)

/-- C7: the data-filtering step treats the selector case-insensitively:
"AUTO" and "auto" yield identical results for every summary table. -/
theorem filterCubeMeasures_caseInsensitive (s : List CubeMeasure) :
    filterCubeMeasures s "AUTO" = filterCubeMeasures s "auto" := by
  unfold filterCubeMeasures
  rw [show strLower "AUTO" = "auto" from by decide]
  rw [show strLower "auto" = "auto" from by decide]

/-- C8: for a raw table with a cube row (task "cube_auto_high", hit 1) and
a cone row (task "cone_auto_high", hit 5) on the same (team, match, phase),
the aggregator output has hit 1: the cube contribution is included, the
cone contribution excluded. -/
theorem get_cube_measures_cubeRowsOnly :
    get_cube_measures
        [⟨1, 1, "auto", "cube_auto_high", 1⟩, ⟨1, 1, "auto", "cone_auto_high", 5⟩]
      = [⟨1, 1, "auto", 1⟩] := by decide

/-- C9: the filtering step never mutates the summary table it is given —
after a call the table equals its value before the call — and a repeated
call on the table left by the first call returns the identical result. -/
theorem filterCubeMeasures_noMutation (s : List CubeMeasure) (phase : String) :
    (filterCubeMeasuresCall s phase).2 = s ∧
      (filterCubeMeasuresCall (filterCubeMeasuresCall s phase).2 phase).1
        = (filterCubeMeasuresCall s phase).1 :=
  ⟨rfl, rfl⟩

/-- C10: invoked with a selector that is not a string (None from the radio
control), the filtering step raises rather than falling through to the
"All" aggregation; every string selector instead yields a result without
raising. -/
theorem filterCubeMeasuresDyn_noneRaises (s : List CubeMeasure) :
    (filterCubeMeasuresDyn s none).isOk = false ∧
      (∀ p : String, filterCubeMeasuresDyn s (some p)
        = Except.ok (filterCubeMeasures s p)) :=
  ⟨rfl, fun _ => rfl⟩

/-- C1 witness: the aggregator output on a concrete raw table satisfies the
spec-side description. -/
theorem get_cube_measures_isCubeSummary_witness :
    IsCubeSummary demoRaw (get_cube_measures demoRaw) :=
  get_cube_measures_isCubeSummary demoRaw

/-- C4 witness: key uniqueness on a concrete raw table. -/
theorem get_cube_measures_keys_nodup_witness :
    ((get_cube_measures demoRaw).map CubeMeasure.gkey).Nodup :=
  get_cube_measures_keys_nodup demoRaw

/-- C5 witness: hit-total preservation on a concrete raw table. -/
theorem get_cube_measures_hitTotal_witness :
    sumHit CubeMeasure.hit (get_cube_measures demoRaw)
      = sumHit Measure.hit (demoRaw.filter (fun r => strStarts r.task "cube")) :=
  get_cube_measures_hitTotal demoRaw

/-- C7 witness: case-insensitivity on a concrete summary table. -/
theorem filterCubeMeasures_caseInsensitive_witness :
    filterCubeMeasures demoSummary "AUTO" = filterCubeMeasures demoSummary "auto" :=
  filterCubeMeasures_caseInsensitive demoSummary

/-- C9 witness: no mutation and call stability on a concrete input. -/
theorem filterCubeMeasures_noMutation_witness :
    (filterCubeMeasuresCall demoSummary "Auto").2 = demoSummary ∧
      (filterCubeMeasuresCall (filterCubeMeasuresCall demoSummary "Auto").2 "Auto").1
        = (filterCubeMeasuresCall demoSummary "Auto").1 :=
  filterCubeMeasures_noMutation demoSummary "Auto"

/-- C10 witness: a None selector yields a raised exception, not a result,
on a concrete summary table. -/
theorem filterCubeMeasuresDyn_noneRaises_witness :
    (filterCubeMeasuresDyn demoSummary none).isOk = false :=
  (filterCubeMeasuresDyn_noneRaises demoSummary).1

end VizDemo
